import Mathlib

/-!
Shallow embedding of the device-licensing server in `src/public-server.js`.
The source file contains two near-duplicate server implementations:

* variant 1 (first half of the file): in-memory state `{ adminToken, allow,
  block }`, loaded once at startup by `loadData`; handlers `/check` (GET),
  `/allow` (POST/DELETE), `/block` (POST/DELETE).
* variant 2 (second half): per-request state `{ adminToken, allow, block,
  pending, lastSeen }` reloaded by `loadServerData` on every operation;
  handlers `/check`, `/allow`, `/block`, DELETE variants, and
  `/pending` (DELETE).

The effect of each HTTP handler on the store is embedded as a pure function on an
explicit store value; fallible handlers (those rejecting an empty device id)
return `Option`.  JavaScript arrays of identifiers become `List String`
(with the source idiom "push if not includes" / "filter" operations kept as
written); the `lastSeen` JavaScript object becomes an association list whose
update function mirrors JS property assignment (overwrite in place if the
key exists, append otherwise).
-/

namespace PublicServer

/-- JavaScript `String.prototype.trim()`: strip whitespace from both ends.
Embedded structurally over the character list (rather than through
`String.trim`, which is definitionally equivalent on the identifiers used
here) so that the kernel can evaluate it on concrete inputs. -/
def jsTrim (s : String) : String :=
  ⟨((s.data.dropWhile Char.isWhitespace).reverse.dropWhile
      Char.isWhitespace).reverse⟩

/-- The JSON body returned by the `/check` handlers:
`{ allowed, forceExit, intervalSec, reason }`. -/
structure CheckResult where
  allowed : Bool
  forceExit : Bool
  intervalSec : Nat
  reason : String
deriving Repr, DecidableEq

/-! ## Variant 1 (first implementation in the file) -/

/-- Variant 1 store: `{ adminToken, allow, block }` (see `loadData`). -/
structure Store1 where
  adminToken : String
  allow : List String
  block : List String
deriving Repr, DecidableEq

/-- Variant 1 `GET /check`: trim the query parameter, then decide.
Source order: empty → "missing deviceId"; `block.includes` → "blocked";
`allow.includes` → allowed; else "not allowed".  `forceExit` is `!allowed`,
`intervalSec` is the constant 30.  The handler does not mutate the store. -/
def check1 (s : Store1) (rawDeviceId : String) : CheckResult :=
  let deviceId := jsTrim rawDeviceId
  if deviceId = "" then ⟨false, true, 30, "missing deviceId"⟩
  else if deviceId ∈ s.block then ⟨false, true, 30, "blocked"⟩
  else if deviceId ∈ s.allow then ⟨true, false, 30, ""⟩
  else ⟨false, true, 30, "not allowed"⟩

/-- Variant 1 `POST /allow`: trim; reject empty; push onto `allow` if not
already included; filter the id out of `block`. -/
def allow1 (rawDeviceId : String) (s : Store1) : Option Store1 :=
  let deviceId := jsTrim rawDeviceId
  if deviceId = "" then none
  else some { s with
    allow := if deviceId ∈ s.allow then s.allow else s.allow ++ [deviceId],
    block := s.block.filter (fun x => x ≠ deviceId) }

/-- Variant 1 `POST /block`: symmetric to `allow1`. -/
def block1 (rawDeviceId : String) (s : Store1) : Option Store1 :=
  let deviceId := jsTrim rawDeviceId
  if deviceId = "" then none
  else some { s with
    block := if deviceId ∈ s.block then s.block else s.block ++ [deviceId],
    allow := s.allow.filter (fun x => x ≠ deviceId) }

/-- Variant 1 `DELETE /allow`: trim (no emptiness check in the source) and
filter the id out of `allow`. -/
def unallow1 (rawDeviceId : String) (s : Store1) : Store1 :=
  { s with allow := s.allow.filter (fun x => x ≠ jsTrim rawDeviceId) }

/-- Variant 1 `DELETE /block`: trim and filter the id out of `block`. -/
def unblock1 (rawDeviceId : String) (s : Store1) : Store1 :=
  { s with block := s.block.filter (fun x => x ≠ jsTrim rawDeviceId) }

/-! ## Variant 2 (second implementation in the file) -/

/-- Variant 2 store: `{ adminToken, allow, block, pending, lastSeen }`
(see `loadServerData`).  `lastSeen` is a JS object keyed by device id,
embedded as an insertion-ordered association list with unique keys. -/
structure Store2 where
  adminToken : String
  allow : List String
  block : List String
  pending : List String
  lastSeen : List (String × String)
deriving Repr, DecidableEq

/-- The freshly seeded variant 2 store (`seed` object in `loadServerData`). -/
def initialStore2 (tok : String) : Store2 :=
  { adminToken := tok, allow := [], block := [], pending := [], lastSeen := [] }

/-- JS object assignment `m[k] = v`: overwrite the entry for `k` in place if
present, otherwise append a new entry at the end. -/
def setLastSeen (m : List (String × String)) (k v : String) :
    List (String × String) :=
  match m with
  | [] => [(k, v)]
  | p :: rest => if p.1 = k then (k, v) :: rest else p :: setLastSeen rest k v

/-- JS object read `m[k]`. -/
def getLastSeen (m : List (String × String)) (k : String) : Option String :=
  match m with
  | [] => none
  | p :: rest => if p.1 = k then some p.2 else getLastSeen rest k

/-- Variant 2 `/check`: trim; on empty return the 400 body with reason
"missing deviceId" and leave the store untouched.  Otherwise record
`lastSeen[deviceId] = now` unconditionally, then test `allow` first, then
`block` (reason `"device blocked"`), and otherwise push the id onto
`pending` if not already there, answering "not allowed".  Returns the store
as persisted by the handler together with the response body. -/
def check2 (s : Store2) (rawDeviceId now : String) : Store2 × CheckResult :=
  let deviceId := jsTrim rawDeviceId
  if deviceId = "" then (s, ⟨false, true, 30, "missing deviceId"⟩)
  else
    let s1 : Store2 := { s with lastSeen := setLastSeen s.lastSeen deviceId now }
    if deviceId ∈ s1.allow then (s1, ⟨true, false, 30, ""⟩)
    else if deviceId ∈ s1.block then (s1, ⟨false, true, 30, "device blocked"⟩)
    else if deviceId ∈ s1.pending then (s1, ⟨false, true, 30, "not allowed"⟩)
    else ({ s1 with pending := s1.pending ++ [deviceId] },
          ⟨false, true, 30, "not allowed"⟩)

/-- Variant 2 `POST /allow`: the `deviceId` taken from the body is used verbatim (no
trim); reject a falsy (empty) id; filter it out of `pending` and `block`;
push onto `allow` if not already included. -/
def allow2 (deviceId : String) (s : Store2) : Option Store2 :=
  if deviceId = "" then none
  else some { s with
    pending := s.pending.filter (fun id => id ≠ deviceId),
    block := s.block.filter (fun id => id ≠ deviceId),
    allow := if deviceId ∈ s.allow then s.allow else s.allow ++ [deviceId] }

/-- Variant 2 `POST /block`: symmetric to `allow2`, again without trimming. -/
def block2 (deviceId : String) (s : Store2) : Option Store2 :=
  if deviceId = "" then none
  else some { s with
    pending := s.pending.filter (fun id => id ≠ deviceId),
    allow := s.allow.filter (fun id => id ≠ deviceId),
    block := if deviceId ∈ s.block then s.block else s.block ++ [deviceId] }

/-- Variant 2 `DELETE /allow`: reject a falsy id (no trim), filter it out of
`allow` only. -/
def unallow2 (deviceId : String) (s : Store2) : Option Store2 :=
  if deviceId = "" then none
  else some { s with allow := s.allow.filter (fun id => id ≠ deviceId) }

/-- Variant 2 `DELETE /block`: reject a falsy id, filter it out of `block`. -/
def unblock2 (deviceId : String) (s : Store2) : Option Store2 :=
  if deviceId = "" then none
  else some { s with block := s.block.filter (fun id => id ≠ deviceId) }

/-- Variant 2 `DELETE /pending`: reset `pending` to the empty array. -/
def clearPending2 (s : Store2) : Store2 :=
  { s with pending := [] }

/-- The `/list` response of variant 2:
`{ allow, block, pending, lastSeen }`. -/
structure ListSnapshot where
  allow : List String
  block : List String
  pending : List String
  lastSeen : List (String × String)
deriving Repr, DecidableEq

/-- Variant 2 `GET /list`: read-only projection of the store. -/
def list2 (s : Store2) : ListSnapshot :=
  ⟨s.allow, s.block, s.pending, s.lastSeen⟩

/-! ## Startup loading -/

/-- The record a successful `JSON.parse` of the data file may yield: each
field is optional (absent / non-array fields are defaulted by the loaders). -/
structure PersistedData where
  adminToken : Option String
  allow : Option (List String)
  block : Option (List String)
  pending : Option (List String)
  lastSeen : Option (List (String × String))
deriving Repr, DecidableEq

/-- The on-disk situation the loaders face at startup: the file may be
missing, unreadable (read throws), hold text that is not valid JSON
(parse throws), or parse to a `PersistedData` record. -/
inductive DiskState where
  | missing
  | unreadable
  | invalidJson
  | valid (data : PersistedData)
deriving Repr, DecidableEq

/-- Variant 1 `loadData`: a missing file is seeded; a read or parse failure
is caught and answered with the seed; a parsed record has a falsy
`adminToken` replaced by the default and non-array `allow`/`block` replaced
by `[]`. -/
def loadData (defaultToken : String) (disk : DiskState) : Store1 :=
  match disk with
  | .missing => { adminToken := defaultToken, allow := [], block := [] }
  | .unreadable => { adminToken := defaultToken, allow := [], block := [] }
  | .invalidJson => { adminToken := defaultToken, allow := [], block := [] }
  | .valid p =>
    { adminToken := match p.adminToken with
        | some t => if t = "" then defaultToken else t
        | none => defaultToken,
      allow := p.allow.getD [],
      block := p.block.getD [] }

/-- Variant 2 `loadServerData`: an existing readable, parseable file yields
the parsed record with falsy fields defaulted; every failure path (missing
file, read error, parse error) falls through to the freshly written seed. -/
def loadServerData (defaultToken : String) (disk : DiskState) : Store2 :=
  match disk with
  | .missing => initialStore2 defaultToken
  | .unreadable => initialStore2 defaultToken
  | .invalidJson => initialStore2 defaultToken
  | .valid p =>
    { adminToken := match p.adminToken with
        | some t => if t = "" then defaultToken else t
        | none => defaultToken,
      allow := p.allow.getD [],
      block := p.block.getD [],
      pending := p.pending.getD [],
      lastSeen := p.lastSeen.getD [] }

/-! ## Reachable store states

The store as embedded is mutated only by the handlers above; reachability
starts from the freshly seeded store.  Variant 2 reloads the file on every
request, but within one process the file always holds the last persisted
state, so successive operations thread the store value. -/

/-- States of the variant 1 store reachable from the seed through the
variant 1 handlers. -/
inductive Reach1 : Store1 → Prop where
  | seed (tok : String) : Reach1 { adminToken := tok, allow := [], block := [] }
  | allow (raw : String) (s s' : Store1) :
      Reach1 s → allow1 raw s = some s' → Reach1 s'
  | block (raw : String) (s s' : Store1) :
      Reach1 s → block1 raw s = some s' → Reach1 s'
  | unallow (raw : String) (s : Store1) : Reach1 s → Reach1 (unallow1 raw s)
  | unblock (raw : String) (s : Store1) : Reach1 s → Reach1 (unblock1 raw s)

/-- States of the variant 2 store reachable from the seed through the
variant 2 handlers. -/
inductive Reach2 : Store2 → Prop where
  | seed (tok : String) : Reach2 (initialStore2 tok)
  | check (raw now : String) (s : Store2) :
      Reach2 s → Reach2 (check2 s raw now).1
  | allow (d : String) (s s' : Store2) :
      Reach2 s → allow2 d s = some s' → Reach2 s'
  | block (d : String) (s s' : Store2) :
      Reach2 s → block2 d s = some s' → Reach2 s'
  | unallow (d : String) (s s' : Store2) :
      Reach2 s → unallow2 d s = some s' → Reach2 s'
  | unblock (d : String) (s s' : Store2) :
      Reach2 s → unblock2 d s = some s' → Reach2 s'
  | clearPending (s : Store2) : Reach2 s → Reach2 (clearPending2 s)

end PublicServer
namespace PublicServer

/-! ## Helper lemmas -/

lemma mem_filter_ne {l : List String} {x d : String} :
    x ∈ l.filter (fun y => y ≠ d) ↔ x ∈ l ∧ x ≠ d := by
  simp

lemma mem_pushIfAbsent {l : List String} {d x : String} :
    x ∈ (if d ∈ l then l else l ++ [d]) ↔ x ∈ l ∨ x = d := by
  split_ifs with h
  · constructor
    · exact fun hx => Or.inl hx
    · rintro (hx | rfl)
      · exact hx
      · exact h
  · simp

lemma getLastSeen_setLastSeen (m : List (String × String)) (k v : String) :
    getLastSeen (setLastSeen m k v) k = some v := by
  induction m with
  | nil => simp [setLastSeen, getLastSeen]
  | cons p rest ih =>
    by_cases h : p.1 = k
    · simp [setLastSeen, getLastSeen, h]
    · simp [setLastSeen, getLastSeen, h, ih]

lemma allow2_ne_empty {d : String} {s s' : Store2} (h : allow2 d s = some s') :
    d ≠ "" := by
  intro hd
  simp [allow2, hd] at h

lemma allow2_eq (d : String) (s : Store2) (hd : d ≠ "") :
    allow2 d s = some { s with
      pending := s.pending.filter (fun id => id ≠ d),
      block := s.block.filter (fun id => id ≠ d),
      allow := if d ∈ s.allow then s.allow else s.allow ++ [d] } := by
  simp [allow2, hd]

lemma block2_ne_empty {d : String} {s s' : Store2} (h : block2 d s = some s') :
    d ≠ "" := by
  intro hd
  simp [block2, hd] at h

lemma block2_eq (d : String) (s : Store2) (hd : d ≠ "") :
    block2 d s = some { s with
      pending := s.pending.filter (fun id => id ≠ d),
      allow := s.allow.filter (fun id => id ≠ d),
      block := if d ∈ s.block then s.block else s.block ++ [d] } := by
  simp [block2, hd]

lemma allow1_eq (raw : String) (s : Store1) (hd : jsTrim raw ≠ "") :
    allow1 raw s = some { s with
      allow := if jsTrim raw ∈ s.allow then s.allow else s.allow ++ [jsTrim raw],
      block := s.block.filter (fun x => x ≠ jsTrim raw) } := by
  simp [allow1, hd]

lemma block1_eq (raw : String) (s : Store1) (hd : jsTrim raw ≠ "") :
    block1 raw s = some { s with
      block := if jsTrim raw ∈ s.block then s.block else s.block ++ [jsTrim raw],
      allow := s.allow.filter (fun x => x ≠ jsTrim raw) } := by
  simp [block1, hd]

lemma allow1_ne_empty {raw : String} {s s' : Store1} (h : allow1 raw s = some s') :
    jsTrim raw ≠ "" := by
  intro hd
  simp [allow1, hd] at h

lemma block1_ne_empty {raw : String} {s s' : Store1} (h : block1 raw s = some s') :
    jsTrim raw ≠ "" := by
  intro hd
  simp [block1, hd] at h

lemma check2_fst_allow_block (s : Store2) (raw now : String) :
    (check2 s raw now).1.allow = s.allow ∧ (check2 s raw now).1.block = s.block := by
  simp only [check2]
  split_ifs <;> simp

/-! ## Invariant I1 preservation -/

lemma disj1_allow1 {raw : String} {s s' : Store1}
    (h : allow1 raw s = some s')
    (hs : ∀ x, ¬(x ∈ s.allow ∧ x ∈ s.block)) :
    ∀ x, ¬(x ∈ s'.allow ∧ x ∈ s'.block) := by
  rw [allow1_eq raw s (allow1_ne_empty h)] at h
  rcases Option.some.inj h with rfl
  rintro x ⟨hxA, hxB⟩
  rw [mem_filter_ne] at hxB
  rcases mem_pushIfAbsent.mp hxA with hxA' | rfl
  · exact hs x ⟨hxA', hxB.1⟩
  · exact hxB.2 rfl

lemma disj1_block1 {raw : String} {s s' : Store1}
    (h : block1 raw s = some s')
    (hs : ∀ x, ¬(x ∈ s.allow ∧ x ∈ s.block)) :
    ∀ x, ¬(x ∈ s'.allow ∧ x ∈ s'.block) := by
  rw [block1_eq raw s (block1_ne_empty h)] at h
  rcases Option.some.inj h with rfl
  rintro x ⟨hxA, hxB⟩
  rw [mem_filter_ne] at hxA
  rcases mem_pushIfAbsent.mp hxB with hxB' | rfl
  · exact hs x ⟨hxA.1, hxB'⟩
  · exact hxA.2 rfl

lemma disj2_allow2 {d : String} {s s' : Store2}
    (h : allow2 d s = some s')
    (hs : ∀ x, ¬(x ∈ s.allow ∧ x ∈ s.block)) :
    ∀ x, ¬(x ∈ s'.allow ∧ x ∈ s'.block) := by
  rw [allow2_eq d s (allow2_ne_empty h)] at h
  rcases Option.some.inj h with rfl
  rintro x ⟨hxA, hxB⟩
  rw [mem_filter_ne] at hxB
  rcases mem_pushIfAbsent.mp hxA with hxA' | rfl
  · exact hs x ⟨hxA', hxB.1⟩
  · exact hxB.2 rfl

lemma disj2_block2 {d : String} {s s' : Store2}
    (h : block2 d s = some s')
    (hs : ∀ x, ¬(x ∈ s.allow ∧ x ∈ s.block)) :
    ∀ x, ¬(x ∈ s'.allow ∧ x ∈ s'.block) := by
  rw [block2_eq d s (block2_ne_empty h)] at h
  rcases Option.some.inj h with rfl
  rintro x ⟨hxA, hxB⟩
  rw [mem_filter_ne] at hxA
  rcases mem_pushIfAbsent.mp hxB with hxB' | rfl
  · exact hs x ⟨hxA.1, hxB'⟩
  · exact hxA.2 rfl

lemma reach1_disj {s : Store1} (h : Reach1 s) :
    ∀ x, ¬(x ∈ s.allow ∧ x ∈ s.block) := by
  induction h with
  | seed tok => rintro x ⟨hx, -⟩; cases hx
  | allow raw s s' _ heq ih => exact disj1_allow1 heq ih
  | block raw s s' _ heq ih => exact disj1_block1 heq ih
  | unallow raw s _ ih =>
    rintro x ⟨hxA, hxB⟩
    exact ih x ⟨List.mem_of_mem_filter hxA, hxB⟩
  | unblock raw s _ ih =>
    rintro x ⟨hxA, hxB⟩
    exact ih x ⟨hxA, List.mem_of_mem_filter hxB⟩

lemma reach2_disj {s : Store2} (h : Reach2 s) :
    ∀ x, ¬(x ∈ s.allow ∧ x ∈ s.block) := by
  induction h with
  | seed tok => rintro x ⟨hx, -⟩; cases hx
  | check raw now s _ ih =>
    rintro x ⟨hxA, hxB⟩
    rcases check2_fst_allow_block s raw now with ⟨hA, hB⟩
    rw [hA] at hxA
    rw [hB] at hxB
    exact ih x ⟨hxA, hxB⟩
  | allow d s s' _ heq ih => exact disj2_allow2 heq ih
  | block d s s' _ heq ih => exact disj2_block2 heq ih
  | unallow d s s' _ heq ih =>
    simp only [unallow2] at heq
    split_ifs at heq with hd
    rcases Option.some.inj heq with rfl
    rintro x ⟨hxA, hxB⟩
    exact ih x ⟨List.mem_of_mem_filter hxA, hxB⟩
  | unblock d s s' _ heq ih =>
    simp only [unblock2] at heq
    split_ifs at heq with hd
    rcases Option.some.inj heq with rfl
    rintro x ⟨hxA, hxB⟩
    exact ih x ⟨hxA, List.mem_of_mem_filter hxB⟩
  | clearPending s _ ih => exact ih

end PublicServer
namespace PublicServer

/-- C1: Invariant I1 holds in every reachable store state of both
implementations: no device identifier is ever simultaneously a member of the
allow set and the block set, because every mutating operation removes the
identifier from the opposing set while adding it to the target set. -/
theorem claim_C1 :
    (∀ s : Store1, Reach1 s → ∀ d : String, ¬(d ∈ s.allow ∧ d ∈ s.block)) ∧
    (∀ s : Store2, Reach2 s → ∀ d : String, ¬(d ∈ s.allow ∧ d ∈ s.block)) :=
  ⟨fun _ h => reach1_disj h, fun _ h => reach2_disj h⟩

/-- Witness for C1: the state reached by `allow2 "a"` from the seed is
reachable and keeps `"a"` out of the block set. -/
theorem claim_C1_witness :
    ¬(("a" : String) ∈ (⟨"k", ["a"], [], [], []⟩ : Store2).allow ∧
      ("a" : String) ∈ (⟨"k", ["a"], [], [], []⟩ : Store2).block) :=
  claim_C1.2 _
    (Reach2.allow "a" (initialStore2 "k") _ (Reach2.seed "k") (by decide)) "a"

/-- C2 counterexample: in the second implementation a blocked device is
answered with reason `"device blocked"`, not `"blocked"` as the claim
states. -/
theorem claim_C2_counterexample :
    (check2 (⟨"k", [], ["dev1"], [], []⟩ : Store2) "dev1" "t0").2.reason
      = "device blocked" ∧ ("device blocked" : String) ≠ "blocked" := by
  constructor
  · decide
  · decide

/-- C2 amended: for a trimmed non-empty identifier, variant 1 answers
blocked devices with `(false, true, "blocked")` (block checked first),
allowed devices with `(true, false, "")` and unclassified devices with
`(false, true, "not allowed")`; variant 2 checks the allow list first and
answers blocked devices with reason `"device blocked"`.  The reason field
ranges over exactly {"missing deviceId", "blocked", "not allowed", ""} in
variant 1 and {"missing deviceId", "device blocked", "not allowed", ""} in
variant 2. -/
theorem claim_C2_amended :
    (∀ (s : Store1) (d : String), jsTrim d = d → d ≠ "" →
      (d ∈ s.block → check1 s d = ⟨false, true, 30, "blocked"⟩) ∧
      (d ∉ s.block → d ∈ s.allow → check1 s d = ⟨true, false, 30, ""⟩) ∧
      (d ∉ s.block → d ∉ s.allow → check1 s d = ⟨false, true, 30, "not allowed"⟩)) ∧
    (∀ (s : Store2) (d now : String), jsTrim d = d → d ≠ "" →
      (d ∈ s.allow → (check2 s d now).2 = ⟨true, false, 30, ""⟩) ∧
      (d ∉ s.allow → d ∈ s.block →
        (check2 s d now).2 = ⟨false, true, 30, "device blocked"⟩) ∧
      (d ∉ s.allow → d ∉ s.block →
        (check2 s d now).2 = ⟨false, true, 30, "not allowed"⟩)) ∧
    (∀ (s : Store1) (raw : String),
      (check1 s raw).reason ∈
        (["missing deviceId", "blocked", "not allowed", ""] : List String)) ∧
    (∀ (s : Store2) (raw now : String),
      (check2 s raw now).2.reason ∈
        (["missing deviceId", "device blocked", "not allowed", ""] : List String)) := by
  refine ⟨?_, ?_, ?_, ?_⟩
  · intro s d hd hne
    refine ⟨fun hb => ?_, fun hnb ha => ?_, fun hnb hna => ?_⟩ <;>
      simp [check1, hd, hne, *]
  · intro s d now hd hne
    refine ⟨fun ha => ?_, fun hna hb => ?_, fun hna hnb => ?_⟩
    · simp [check2, hd, hne, ha]
    · simp [check2, hd, hne, hna, hb]
    · simp only [check2, hd, if_neg hne]
      simp only [hna, hnb, if_neg, ite_false]
      split_ifs <;> rfl
  · intro s raw
    simp only [check1]
    split_ifs <;> simp
  · intro s raw now
    simp only [check2]
    split_ifs <;> simp

/-- Witness for the amended C2: a concrete blocked device in variant 1. -/
theorem claim_C2_amended_witness :
    check1 (⟨"k", [], ["b"]⟩ : Store1) "b" = ⟨false, true, 30, "blocked"⟩ :=
  (claim_C2_amended.1 (⟨"k", [], ["b"]⟩ : Store1) "b"
    (by decide) (by decide)).1 (by decide)

/-- C3: after a successful `allow(d)` the identifier is in the allow set and
in neither the block set nor the pending set, and a second `allow(d)` leaves
the allow set unchanged; symmetrically for `block(d)`.  Stated for both
variant 2 (`allow2`/`block2`) and variant 1 (`allow1`/`block1`, whose
handlers trim their input, so the variant 1 part is stated for identifiers
fixed by trimming). -/
theorem claim_C3 (d : String) :
    (∀ s s' : Store2, allow2 d s = some s' →
      d ∈ s'.allow ∧ d ∉ s'.block ∧ d ∉ s'.pending ∧
      ∀ s'' : Store2, allow2 d s' = some s'' → s''.allow = s'.allow) ∧
    (∀ s s' : Store2, block2 d s = some s' →
      d ∈ s'.block ∧ d ∉ s'.allow ∧ d ∉ s'.pending ∧
      ∀ s'' : Store2, block2 d s' = some s'' → s''.block = s'.block) ∧
    (jsTrim d = d → ∀ s s' : Store1, allow1 d s = some s' →
      d ∈ s'.allow ∧ d ∉ s'.block ∧
      ∀ s'' : Store1, allow1 d s' = some s'' → s''.allow = s'.allow) ∧
    (jsTrim d = d → ∀ s s' : Store1, block1 d s = some s' →
      d ∈ s'.block ∧ d ∉ s'.allow ∧
      ∀ s'' : Store1, block1 d s' = some s'' → s''.block = s'.block) := by
  refine ⟨?_, ?_, ?_, ?_⟩
  · intro s s' h
    have hne := allow2_ne_empty h
    rw [allow2_eq d s hne] at h
    rcases Option.some.inj h with rfl
    refine ⟨mem_pushIfAbsent.mpr (Or.inr rfl), ?_, ?_, ?_⟩
    · rw [mem_filter_ne]
      rintro ⟨-, hcon⟩
      exact hcon rfl
    · rw [mem_filter_ne]
      rintro ⟨-, hcon⟩
      exact hcon rfl
    · intro s'' h2
      rw [allow2_eq d _ hne] at h2
      rcases Option.some.inj h2 with rfl
      simp [mem_pushIfAbsent.mpr (Or.inr rfl)]
  · intro s s' h
    have hne := block2_ne_empty h
    rw [block2_eq d s hne] at h
    rcases Option.some.inj h with rfl
    refine ⟨mem_pushIfAbsent.mpr (Or.inr rfl), ?_, ?_, ?_⟩
    · rw [mem_filter_ne]
      rintro ⟨-, hcon⟩
      exact hcon rfl
    · rw [mem_filter_ne]
      rintro ⟨-, hcon⟩
      exact hcon rfl
    · intro s'' h2
      rw [block2_eq d _ hne] at h2
      rcases Option.some.inj h2 with rfl
      simp [mem_pushIfAbsent.mpr (Or.inr rfl)]
  · intro hd s s' h
    have hne := allow1_ne_empty h
    rw [hd] at hne
    simp only [allow1, hd] at h
    rw [if_neg hne] at h
    rcases Option.some.inj h with rfl
    refine ⟨mem_pushIfAbsent.mpr (Or.inr rfl), ?_, ?_⟩
    · rw [mem_filter_ne]
      rintro ⟨-, hcon⟩
      exact hcon rfl
    · intro s'' h2
      simp only [allow1, hd] at h2
      rw [if_neg hne] at h2
      rcases Option.some.inj h2 with rfl
      simp [mem_pushIfAbsent.mpr (Or.inr rfl)]
  · intro hd s s' h
    have hne := block1_ne_empty h
    rw [hd] at hne
    simp only [block1, hd] at h
    rw [if_neg hne] at h
    rcases Option.some.inj h with rfl
    refine ⟨mem_pushIfAbsent.mpr (Or.inr rfl), ?_, ?_⟩
    · rw [mem_filter_ne]
      rintro ⟨-, hcon⟩
      exact hcon rfl
    · intro s'' h2
      simp only [block1, hd] at h2
      rw [if_neg hne] at h2
      rcases Option.some.inj h2 with rfl
      simp [mem_pushIfAbsent.mpr (Or.inr rfl)]

end PublicServer
namespace PublicServer

/-- Witness for C3: `allow2 "a"` on the fresh store yields a state with
`"a"` allowed and in neither other set. -/
theorem claim_C3_witness :
    ("a" : String) ∈ (⟨"k", ["a"], [], [], []⟩ : Store2).allow ∧
    ("a" : String) ∉ (⟨"k", ["a"], [], [], []⟩ : Store2).block ∧
    ("a" : String) ∉ (⟨"k", ["a"], [], [], []⟩ : Store2).pending :=
  ⟨((claim_C3 "a").1 (initialStore2 "k") _ (by decide)).1,
   ((claim_C3 "a").1 (initialStore2 "k") _ (by decide)).2.1,
   ((claim_C3 "a").1 (initialStore2 "k") _ (by decide)).2.2.1⟩

/-- C4: `check` is idempotent with respect to classification: on a fresh
store two successive checks of the same unclassified identifier answer
"not allowed" both times and leave the pending set at exactly one entry,
and a check never changes the allow or block set of any store. -/
theorem claim_C4 (d t1 t2 tok : String) (hd : jsTrim d = d) (hne : d ≠ "") :
    (check2 (initialStore2 tok) d t1).2.reason = "not allowed" ∧
    (check2 (initialStore2 tok) d t1).1.pending = [d] ∧
    (check2 (check2 (initialStore2 tok) d t1).1 d t2).2.reason = "not allowed" ∧
    (check2 (check2 (initialStore2 tok) d t1).1 d t2).1.pending = [d] ∧
    (∀ (s : Store2) (raw now : String),
      (check2 s raw now).1.allow = s.allow ∧ (check2 s raw now).1.block = s.block) := by
  refine ⟨?_, ?_, ?_, ?_, fun s raw now => check2_fst_allow_block s raw now⟩ <;>
    simp [check2, initialStore2, setLastSeen, hd, hne]

/-- Witness for C4: two concrete checks of `"a"` on the fresh store. -/
theorem claim_C4_witness :
    (check2 (initialStore2 "k") "a" "t1").2.reason = "not allowed" ∧
    (check2 (initialStore2 "k") "a" "t1").1.pending = ["a"] ∧
    (check2 (check2 (initialStore2 "k") "a" "t1").1 "a" "t2").2.reason = "not allowed" ∧
    (check2 (check2 (initialStore2 "k") "a" "t1").1 "a" "t2").1.pending = ["a"] :=
  ⟨(claim_C4 "a" "t1" "t2" "k" (by decide) (by decide)).1,
   (claim_C4 "a" "t1" "t2" "k" (by decide) (by decide)).2.1,
   (claim_C4 "a" "t1" "t2" "k" (by decide) (by decide)).2.2.1,
   (claim_C4 "a" "t1" "t2" "k" (by decide) (by decide)).2.2.2.1⟩

/-- C5: on every check of a non-empty identifier the store records
`lastSeen[deviceId] = timestamp` - whatever classification the device has -
and the updated mapping is what `list` exposes. -/
theorem claim_C5 (s : Store2) (d t : String) (hd : jsTrim d = d) (hne : d ≠ "") :
    getLastSeen (check2 s d t).1.lastSeen d = some t ∧
    (list2 (check2 s d t).1).lastSeen = (check2 s d t).1.lastSeen := by
  refine ⟨?_, rfl⟩
  simp only [check2, hd, if_neg hne]
  split_ifs <;> simp [getLastSeen_setLastSeen]

/-- Witness for C5: checking an already-allowed device still updates its
`lastSeen` entry. -/
theorem claim_C5_witness :
    getLastSeen (check2 (⟨"k", ["a"], [], [], []⟩ : Store2) "a" "t9").1.lastSeen "a"
      = some "t9" ∧
    (list2 (check2 (⟨"k", ["a"], [], [], []⟩ : Store2) "a" "t9").1).lastSeen
      = (check2 (⟨"k", ["a"], [], [], []⟩ : Store2) "a" "t9").1.lastSeen :=
  claim_C5 (⟨"k", ["a"], [], [], []⟩ : Store2) "a" "t9" (by decide) (by decide)

/-- C6: a device identifier that is empty after trimming is answered with
`allowed = false`, `forceExit = true`, reason "missing deviceId", and the
store is left completely unchanged (the check of variant 1 never mutates;
variant 2 returns before touching the store). -/
theorem claim_C6 (s1 : Store1) (s2 : Store2) (raw now : String)
    (h : jsTrim raw = "") :
    check1 s1 raw = ⟨false, true, 30, "missing deviceId"⟩ ∧
    check2 s2 raw now = (s2, ⟨false, true, 30, "missing deviceId"⟩) := by
  constructor
  · simp [check1, h]
  · simp [check2, h]

/-- Witness for C6: the whitespace-only identifier `" "`. -/
theorem claim_C6_witness :
    check1 (⟨"k", [], []⟩ : Store1) " " = ⟨false, true, 30, "missing deviceId"⟩ ∧
    check2 (initialStore2 "k") " " "t0"
      = (initialStore2 "k", ⟨false, true, 30, "missing deviceId"⟩) :=
  claim_C6 (⟨"k", [], []⟩ : Store1) (initialStore2 "k") " " "t0" (by decide)

/-- C8: loading persisted state that is missing, unreadable or not valid
JSON never aborts: both loaders return the freshly seeded store with the
supplied admin token and empty collections. -/
theorem claim_C8 (tok : String) (disk : DiskState)
    (h : disk = .missing ∨ disk = .unreadable ∨ disk = .invalidJson) :
    loadData tok disk = { adminToken := tok, allow := [], block := [] } ∧
    loadServerData tok disk = initialStore2 tok := by
  rcases h with h | h | h <;> subst h <;>
    simp [loadData, loadServerData, initialStore2]

/-- Witness for C8: loading a file whose contents fail to parse. -/
theorem claim_C8_witness :
    loadData "k" .invalidJson = { adminToken := "k", allow := [], block := [] } ∧
    loadServerData "k" .invalidJson = initialStore2 "k" :=
  claim_C8 "k" .invalidJson (Or.inr (Or.inr rfl))

/-- C9: `clearPending` empties the pending set and leaves the allow set,
the block set and the `lastSeen` mapping exactly unchanged. -/
theorem claim_C9 (s : Store2) :
    (clearPending2 s).pending = [] ∧
    (clearPending2 s).allow = s.allow ∧
    (clearPending2 s).block = s.block ∧
    (clearPending2 s).lastSeen = s.lastSeen := by
  simp [clearPending2]

/-- Witness for C9: clearing pending on a concrete populated store. -/
theorem claim_C9_witness :
    (clearPending2 (⟨"k", ["a"], ["b"], ["c"], [("a", "t")]⟩ : Store2)).pending = [] ∧
    (clearPending2 (⟨"k", ["a"], ["b"], ["c"], [("a", "t")]⟩ : Store2)).allow
      = (⟨"k", ["a"], ["b"], ["c"], [("a", "t")]⟩ : Store2).allow ∧
    (clearPending2 (⟨"k", ["a"], ["b"], ["c"], [("a", "t")]⟩ : Store2)).block
      = (⟨"k", ["a"], ["b"], ["c"], [("a", "t")]⟩ : Store2).block ∧
    (clearPending2 (⟨"k", ["a"], ["b"], ["c"], [("a", "t")]⟩ : Store2)).lastSeen
      = (⟨"k", ["a"], ["b"], ["c"], [("a", "t")]⟩ : Store2).lastSeen :=
  claim_C9 (⟨"k", ["a"], ["b"], ["c"], [("a", "t")]⟩ : Store2)

/-- C10: the `allow`/`block` handlers of the second implementation store the
supplied identifier verbatim (no trimming), while its `check` trims; hence
an identifier with trailing whitespace can be allowed yet every check of
the same raw string resolves to the trimmed form and is answered
"not allowed". -/
theorem claim_C10 :
    (∀ (d : String) (s s' : Store2), allow2 d s = some s' → d ∈ s'.allow) ∧
    (∀ (d : String) (s s' : Store2), block2 d s = some s' → d ∈ s'.block) ∧
    (∃ (d : String) (s' : Store2),
      jsTrim d ≠ d ∧
      allow2 d (initialStore2 "k") = some s' ∧
      d ∈ s'.allow ∧
      (check2 s' d "t0").2.allowed = false ∧
      (check2 s' d "t0").2.reason = "not allowed") := by
  refine ⟨?_, ?_, ?_⟩
  · intro d s s' h
    rw [allow2_eq d s (allow2_ne_empty h)] at h
    rcases Option.some.inj h with rfl
    exact mem_pushIfAbsent.mpr (Or.inr rfl)
  · intro d s s' h
    rw [block2_eq d s (block2_ne_empty h)] at h
    rcases Option.some.inj h with rfl
    exact mem_pushIfAbsent.mpr (Or.inr rfl)
  · exact ⟨"dev1 ", ⟨"k", ["dev1 "], [], [], []⟩,
      by decide, by decide, by decide, by decide, by decide⟩

/-- Witness for C10: the verbatim-storage half of the claim at the concrete
identifier with a trailing space. -/
theorem claim_C10_witness :
    ("dev1 " : String) ∈ (⟨"k", ["dev1 "], [], [], []⟩ : Store2).allow :=
  claim_C10.1 "dev1 " (initialStore2 "k") _ (by decide)

end PublicServer
